import Mathlib

/-!
Shallow embedding of the `deferred-reference` Rust crate.

The crate manipulates raw pointers to slice-like regions (`[T]` and `[T; N]`)
without dereferencing them.  We model an element-typed address space: a thin
pointer `*const T::Element` is a `Nat` address measured in element units, and a
fat pointer `*const [T]` is an address together with its length metadata
(`SlicePtr`).  A pointer `*const [T; N]` is thin (`ArrayPtr N`); the length `N`
comes from the type.  `PointerLength::len` for `[T; N]` returns `N` ignoring
the address; for `[T]` with the `slice_ptr_len` feature it reads the metadata
field; without the feature it panics.

Panics are modelled with `Except PanicMsg`; each constructor of `PanicMsg`
corresponds to one of the distinct panic sites in the source and carries the
same data that the source interpolates into its message (the offending index
or bound, and the length).

Machine integers: `usize` values are modelled as `Nat`.  The only arithmetic
in the indexing code that can overflow is the `end + 1` inside
`into_slice_range` (src/slice_pointer_index.rs), which we model with an
explicit wrap modulo `2 ^ 64`; every checked caller guards `end == usize::MAX`
before reaching it.  All other operations are comparisons and subtractions
that cannot overflow (Rust `usize` subtraction appears only as
`end - start` under the guard `start <= end`, matching truncated `Nat`
subtraction).
-/

/-- The distinct panic sites of src/slice_pointer_index.rs and the `assert!`
in src/slice_like_impl.rs.  Each constructor carries the values the source
formats into the panic message. -/
inductive PanicMsg : Type where
  /-- "range start index {i} out of range for slice pointer of length {n}" -/
  | startFail (i n : Nat)
  /-- "range end index {i} out of range for slice pointer of length {n}" -/
  | endFail (i n : Nat)
  /-- "slice pointer index starts at {s} but ends at {e}" -/
  | orderFail (s e : Nat)
  /-- "attempted to index slice pointer up to maximum usize" -/
  | endOverflowFail
  /-- "index {i} out of range for slice pointer of length {n}" -/
  | indexFail (i n : Nat)
  /-- failure of the `assert!(mid <= self.len())` in `split_at` / `split_at_mut` -/
  | assertFail
  /-- panic of `PointerLength::len` for `[T]` when the `slice_ptr_len` feature
  is disabled: "calling this method on slice pointers requires the
  `slice_ptr_len` feature to be enabled" -/
  | sliceLenFeature
  deriving DecidableEq, Repr

/-- A fat pointer `*const [T]` / `*mut [T]`: base address (in element units)
plus the length metadata carried by the pointer itself. -/
structure SlicePtr : Type where
  addr : Nat
  len : Nat
  deriving DecidableEq, Repr

/-- A thin pointer `*const [T; N]` / `*mut [T; N]`: just the base address;
the length `N` lives in the type. -/
structure ArrayPtr (N : Nat) : Type where
  addr : Nat
  deriving DecidableEq, Repr

/-- `PointerLength for [T; N]`: `fn len(_: *const Self) -> usize { N }` —
the address is ignored and the compile-time constant `N` is returned. -/
def PointerLength.lenArray (N : Nat) (_ptr : ArrayPtr N) : Nat := N

/-- `PointerLength for [T]` with the `slice_ptr_len` feature: the length is
read from the fat-pointer metadata, never from memory. -/
def PointerLength.lenSlice (ptr : SlicePtr) : Nat := ptr.len

/-- `PointerLength for [T]` WITHOUT the `slice_ptr_len` feature:
`fn len(_: *const Self) -> usize` unconditionally panics. -/
def PointerLength.lenSliceNoFeature (_ptr : SlicePtr) : Except PanicMsg Nat :=
  .error .sliceLenFeature

/-- Coercion of a thin array pointer `*const [T; N]` to the fat slice pointer
`*const [T]`: same address, length metadata `N` (used by the `RangeFull`
impl for `[T; N]` and by the array-to-slice `From` impls, which call
`core::ptr::slice_from_raw_parts(ptr as *const T, N)`). -/
def ArrayPtr.toSlice {N : Nat} (ptr : ArrayPtr N) : SlicePtr :=
  ⟨ptr.addr, N⟩

namespace USizeIdx

/-! `SlicePointerIndex<T> for usize` (src/slice_pointer_index.rs, lines
94-148).  The output is a thin element pointer `*const T::Element`. -/

/-- `get_unchecked`: `(slice as *const T::Element).add(self)`. -/
def get_unchecked (i : Nat) (slice : SlicePtr) : Nat :=
  slice.addr + i

/-- `get`: `if self < len(slice) { Some(get_unchecked) } else { None }`. -/
def get (i : Nat) (slice : SlicePtr) : Option Nat :=
  if i < PointerLength.lenSlice slice then some (get_unchecked i slice) else none

/-- `index`: `if self > len(slice) { slice_index_overflow_fail(self, len) }`
then `get_unchecked`.  Note the source really compares with `>`. -/
def index (i : Nat) (slice : SlicePtr) : Except PanicMsg Nat :=
  if i > PointerLength.lenSlice slice then
    .error (.indexFail i (PointerLength.lenSlice slice))
  else
    .ok (get_unchecked i slice)

end USizeIdx

/-- `core::ops::Range<usize>`: `start..end` (the field `end` is a Lean
keyword, so it is named `stop` here). -/
structure RustRange : Type where
  start : Nat
  stop : Nat
  deriving DecidableEq, Repr

namespace RangeIdx

/-! `SlicePointerIndex<T> for Range<usize>` (src/slice_pointer_index.rs,
lines 150-212).  The output is a fat pointer `*const [T::Element]`. -/

/-- `get_unchecked`:
`slice_from_raw_parts((slice as *const Element).add(start), end - start)`. -/
def get_unchecked (r : RustRange) (slice : SlicePtr) : SlicePtr :=
  ⟨slice.addr + r.start, r.stop - r.start⟩

/-- `get`: `if start > end || end > len(slice) { None } else { Some(...) }`. -/
def get (r : RustRange) (slice : SlicePtr) : Option SlicePtr :=
  if r.start > r.stop ∨ r.stop > PointerLength.lenSlice slice then
    none
  else
    some (get_unchecked r slice)

/-- `index`: start-after-end panics first, then end-out-of-range, else
`get_unchecked`. -/
def index (r : RustRange) (slice : SlicePtr) : Except PanicMsg SlicePtr :=
  if r.start > r.stop then
    .error (.orderFail r.start r.stop)
  else if r.stop > PointerLength.lenSlice slice then
    .error (.endFail r.stop (PointerLength.lenSlice slice))
  else
    .ok (get_unchecked r slice)

end RangeIdx

namespace RangeToIdx

/-! `SlicePointerIndex<T> for RangeTo<usize>` (`..end`, lines 214-251):
everything delegates to `0..end`. -/

/-- `get_unchecked`: `(0..self.end).get_unchecked(slice)`. -/
def get_unchecked (stop : Nat) (slice : SlicePtr) : SlicePtr :=
  RangeIdx.get_unchecked ⟨0, stop⟩ slice

/-- `get`: `(0..self.end).get(slice)`. -/
def get (stop : Nat) (slice : SlicePtr) : Option SlicePtr :=
  RangeIdx.get ⟨0, stop⟩ slice

/-- `index`: `(0..self.end).index(slice)`. -/
def index (stop : Nat) (slice : SlicePtr) : Except PanicMsg SlicePtr :=
  RangeIdx.index ⟨0, stop⟩ slice

end RangeToIdx

namespace RangeFromIdx

/-! `SlicePointerIndex<T> for RangeFrom<usize>` (`start..`, lines 253-298):
`get`/`get_unchecked` delegate to `start..len`, while `index` performs its
own start bound check with a dedicated panic message. -/

/-- `get_unchecked`: `(self.start..len(slice)).get_unchecked(slice)`. -/
def get_unchecked (start : Nat) (slice : SlicePtr) : SlicePtr :=
  RangeIdx.get_unchecked ⟨start, PointerLength.lenSlice slice⟩ slice

/-- `get`: `(self.start..len(slice)).get(slice)`. -/
def get (start : Nat) (slice : SlicePtr) : Option SlicePtr :=
  RangeIdx.get ⟨start, PointerLength.lenSlice slice⟩ slice

/-- `index`: `if start > len { slice_start_index_len_fail(start, len) }` else
`get_unchecked`. -/
def index (start : Nat) (slice : SlicePtr) : Except PanicMsg SlicePtr :=
  if start > PointerLength.lenSlice slice then
    .error (.startFail start (PointerLength.lenSlice slice))
  else
    .ok (get_unchecked start slice)

end RangeFromIdx

namespace RangeFullIdx

/-! `SlicePointerIndex<[T]> for RangeFull` (lines 300-332): every method
returns the input pointer unchanged; no bounds check, no call to
`PointerLength::len`, no panic site.  `index` is typed `Except` only to keep
the panicking accessors uniform; it is total (always `.ok`). -/

/-- `get_unchecked`: returns `slice` itself. -/
def get_unchecked (slice : SlicePtr) : SlicePtr := slice

/-- `get`: `Some(slice)` unconditionally. -/
def get (slice : SlicePtr) : Option SlicePtr := some slice

/-- `index`: returns `slice` itself, with no panic path. -/
def index (slice : SlicePtr) : Except PanicMsg SlicePtr := .ok slice

end RangeFullIdx

namespace RangeFullArrIdx

/-! `SlicePointerIndex<[T; N]> for RangeFull` (lines 334-366): the array
pointer is returned after the unsized coercion `*const [T; N] -> *const [T]`,
which attaches the length metadata `N`. -/

/-- `get_unchecked`: the coerced pointer. -/
def get_unchecked {N : Nat} (slice : ArrayPtr N) : SlicePtr := slice.toSlice

/-- `get`: `Some(slice)` (coerced) unconditionally. -/
def get {N : Nat} (slice : ArrayPtr N) : Option SlicePtr := some slice.toSlice

/-- `index`: the coerced pointer, with no panic path. -/
def index {N : Nat} (slice : ArrayPtr N) : Except PanicMsg SlicePtr :=
  .ok slice.toSlice

end RangeFullArrIdx

/-- `usize::MAX`. -/
def USIZE_MAX : Nat := 2 ^ 64 - 1

/-- `core::ops::RangeInclusive<usize>`: `start..=end` (`*self.start()` and
`*self.end()`; the slicing code never iterates the range, so the exhaustion
flag of the real type never matters and is not modelled). -/
structure RustRangeInclusive : Type where
  start : Nat
  stop : Nat
  deriving DecidableEq, Repr

/-- `RangeInclusive::is_empty` for a freshly constructed (non-exhausted)
range: `!(start <= end)`. -/
def RustRangeInclusive.is_empty (r : RustRangeInclusive) : Bool :=
  ¬ (r.start ≤ r.stop)

/-- `into_slice_range` (src/slice_pointer_index.rs, lines 368-378):
`exclusive_end = *end + 1` (wrapping at `usize` width in release mode;
every checked caller guards `*end == usize::MAX` first), and an empty range
is turned into `exclusive_end..exclusive_end` so that the endpoint is still
bounds-checked. -/
def into_slice_range (r : RustRangeInclusive) : RustRange :=
  let exclusive_end := (r.stop + 1) % 2 ^ 64
  let start := if r.is_empty then exclusive_end else r.start
  ⟨start, exclusive_end⟩

namespace RangeIncIdx

/-! `SlicePointerIndex<T> for RangeInclusive<usize>` (lines 380-423). -/

/-- `get_unchecked`: `into_slice_range(self).get_unchecked(slice)`. -/
def get_unchecked (r : RustRangeInclusive) (slice : SlicePtr) : SlicePtr :=
  RangeIdx.get_unchecked (into_slice_range r) slice

/-- `get`: `if *end == usize::MAX { None } else { into_slice_range(self).get(slice) }`. -/
def get (r : RustRangeInclusive) (slice : SlicePtr) : Option SlicePtr :=
  if r.stop = USIZE_MAX then none else RangeIdx.get (into_slice_range r) slice

/-- `index`: `if *end == usize::MAX { slice_end_index_overflow_fail() }` then
`into_slice_range(self).index(slice)`. -/
def index (r : RustRangeInclusive) (slice : SlicePtr) : Except PanicMsg SlicePtr :=
  if r.stop = USIZE_MAX then
    .error .endOverflowFail
  else
    RangeIdx.index (into_slice_range r) slice

end RangeIncIdx

namespace RangeToIncIdx

/-! `SlicePointerIndex<T> for RangeToInclusive<usize>` (`..=end`, lines
425-462): everything delegates to `0..=end`. -/

/-- `get_unchecked`: `(0..=self.end).get_unchecked(slice)`. -/
def get_unchecked (stop : Nat) (slice : SlicePtr) : SlicePtr :=
  RangeIncIdx.get_unchecked ⟨0, stop⟩ slice

/-- `get`: `(0..=self.end).get(slice)`. -/
def get (stop : Nat) (slice : SlicePtr) : Option SlicePtr :=
  RangeIncIdx.get ⟨0, stop⟩ slice

/-- `index`: `(0..=self.end).index(slice)`. -/
def index (stop : Nat) (slice : SlicePtr) : Except PanicMsg SlicePtr :=
  RangeIncIdx.index ⟨0, stop⟩ slice

end RangeToIncIdx

/-- The two reference flavors of the sealed `Reference` trait
(src/reference.rs): shared (`&T`) and exclusive (`&mut T`).  In the source
the flavor is a type parameter; the embedding records it as data on the
handle. -/
inductive Flavor : Type where
  | shared
  | exclusive
  deriving DecidableEq, Repr

/-- `Deferred<T>` for a slice-like target (`T::Target = [E]` or, after the
array-to-fat-pointer view justified by `lenArray_eq_lenSlice_toSlice`,
`[E; N]`): the single `NonNull` pointer field plus the phantom flavor. -/
structure DeferredSlice : Type where
  flavor : Flavor
  ptr : SlicePtr
  deriving DecidableEq, Repr

/-- `Deferred<T>` for a thin (sized) target `T::Target = E`: the pointer
field plus the phantom flavor. -/
structure DeferredThin : Type where
  flavor : Flavor
  addr : Nat
  deriving DecidableEq, Repr

/-- `Deferred<&[E; N]>` / `Deferred<&mut [E; N]>`: a thin pointer to an
array target, with the phantom flavor. -/
structure DeferredArray (N : Nat) : Type where
  flavor : Flavor
  ptr : ArrayPtr N
  deriving DecidableEq, Repr

/-- The memory an execution runs in: the value of type `α` stored at each
element address.  Dereferencing operations read it; the index computations
never touch it (they take no `Mem` argument at all, mirroring the
`SlicePointerIndex` safety contract "the pointers may not be dereferenced"). -/
def Mem (α : Type) : Type := Nat → α

/-- Dereferencing a thin pointer (`Deref for Deferred`, `&*self.as_ptr()`):
the value at its address. -/
def DeferredThin.deref {α : Type} (M : Mem α) (d : DeferredThin) : α :=
  M d.addr

/-- The contents a fat slice pointer refers to: the `len` consecutive
elements starting at `addr`.  This is what `Deref for Deferred` yields for a
slice target. -/
def SlicePtr.contents {α : Type} (M : Mem α) (p : SlicePtr) : List α :=
  (List.range p.len).map fun i => M (p.addr + i)

/-- The contents an array pointer refers to: the `N` consecutive elements
starting at `addr`. -/
def ArrayPtr.contents {α : Type} {N : Nat} (M : Mem α) (p : ArrayPtr N) : List α :=
  (List.range N).map fun i => M (p.addr + i)

namespace Deferred

/-! Methods of `Deferred` for slice-like targets (src/slice_like_impl.rs)
and the relevant trait impls (src/core_traits_impl.rs, src/deferred.rs). -/

/-- `Deferred::len`: `PointerLength::len(self.as_ptr())` (stated for the
metadata-bearing pointer; for arrays this agrees with `lenArray` by
`lenArray_eq_lenSlice_toSlice`). -/
def len (d : DeferredSlice) : Nat := PointerLength.lenSlice d.ptr

/-- `Deferred::get` with a single-position index: `index.get(self.as_ptr())`
followed by a dereference of the resulting element pointer. -/
def getElem {α : Type} (M : Mem α) (d : DeferredSlice) (i : Nat) : Option α :=
  (USizeIdx.get i d.ptr).map M

/-- `Deferred::get_unchecked` with a single-position index:
`&*index.get_unchecked(self.as_ptr())`. -/
def getElemUnchecked {α : Type} (M : Mem α) (d : DeferredSlice) (i : Nat) : α :=
  M (USizeIdx.get_unchecked i d.ptr)

/-- The `Index` operator (src/core_traits_impl.rs lines 79-93) with a
single-position index: `&*index.index(self.as_ptr())`; a panic in
`SlicePointerIndex::index` propagates. -/
def indexElem {α : Type} (M : Mem α) (d : DeferredSlice) (i : Nat) :
    Except PanicMsg α :=
  (USizeIdx.index i d.ptr).map M

/-- `Deferred::split_at_unchecked` (src/slice_like_impl.rs lines 189-196):
`(Deferred::from_raw((..mid).get_unchecked(ptr)),
  Deferred::from_raw((mid..).get_unchecked(ptr)))`.
`Deferred::from_raw` produces a `Deferred<&[Element]>`, i.e. a SHARED
handle, whatever the flavor of `self` is. -/
def split_at_unchecked (d : DeferredSlice) (mid : Nat) :
    DeferredSlice × DeferredSlice :=
  (⟨.shared, RangeToIdx.get_unchecked mid d.ptr⟩,
   ⟨.shared, RangeFromIdx.get_unchecked mid d.ptr⟩)

/-- `Deferred::split_at` (lines 242-248): `assert!(mid <= self.len())` then
`split_at_unchecked`.  A failed `assert!` panics. -/
def split_at (d : DeferredSlice) (mid : Nat) :
    Except PanicMsg (DeferredSlice × DeferredSlice) :=
  if mid ≤ len d then .ok (split_at_unchecked d mid) else .error .assertFail

/-- `Deferred::split_at_mut_unchecked` (lines 358-366), available only on
`Deferred<&mut T>`: `(Deferred::from_raw_mut((..mid).get_unchecked_mut(ptr)),
Deferred::from_raw_mut((mid..).get_unchecked_mut(ptr)))`.
`Deferred::from_raw_mut` produces a `Deferred<&mut [Element]>`, i.e. an
EXCLUSIVE handle. -/
def split_at_mut_unchecked (d : DeferredSlice) (mid : Nat) :
    DeferredSlice × DeferredSlice :=
  (⟨.exclusive, RangeToIdx.get_unchecked mid d.ptr⟩,
   ⟨.exclusive, RangeFromIdx.get_unchecked mid d.ptr⟩)

/-- `Deferred::split_at_mut` (lines 397-403): `assert!(mid <= self.len())`
then `split_at_mut_unchecked`. -/
def split_at_mut (d : DeferredSlice) (mid : Nat) :
    Except PanicMsg (DeferredSlice × DeferredSlice) :=
  if mid ≤ len d then .ok (split_at_mut_unchecked d mid) else .error .assertFail

/-- `From<Deferred<&mut T>> for Deferred<&T>` / `Deferred::into_ref`
(src/core_traits_impl.rs lines 108-116, src/deferred.rs lines 284-287):
`Deferred::from_raw(deferred.as_ptr())` — the address is kept, the flavor
becomes shared. -/
def into_ref (d : DeferredThin) : DeferredThin :=
  ⟨.shared, d.addr⟩

/-- `From<Deferred<&[T; N]>> for Deferred<&[T]>` and
`From<Deferred<&mut [T; N]>> for Deferred<&mut [T]>` (src/core_traits_impl.rs
lines 138-154): `from_raw(slice_from_raw_parts(deferred.as_ptr() as *const T, N))`
— the flavor is preserved, the address is kept and the metadata becomes `N`. -/
def widen {N : Nat} (d : DeferredArray N) : DeferredSlice :=
  ⟨d.flavor, d.ptr.toSlice⟩

end Deferred

/-- The generic index impls (`SlicePointerIndex<T>` for `T: SliceLike`) use
the pointer only through `PointerLength::len` and the base address.  For
arrays, `PointerLength::len` ignores the address and returns `N`, so a
`*const [T; N]` behaves under every index shape exactly like the fat pointer
`⟨addr, N⟩`; the index family is therefore stated over `SlicePtr`. -/
theorem lenArray_eq_lenSlice_toSlice (N : Nat) (ptr : ArrayPtr N) :
    PointerLength.lenArray N ptr = PointerLength.lenSlice ptr.toSlice := rfl

/-- Auxiliary: the wrap in `into_slice_range` is the identity below
`usize::MAX`. -/
theorem succ_mod_usize (b : Nat) (h : b < USIZE_MAX) : (b + 1) % 2 ^ 64 = b + 1 := by
  have hmax : USIZE_MAX = 2 ^ 64 - 1 := rfl
  have : b + 1 < 2 ^ 64 := by
    have : (0 : Nat) < 2 ^ 64 := Nat.pos_pow_of_pos 64 (by omega)
    omega
  exact Nat.mod_eq_of_lt this

/-- Auxiliary: the contents of two adjacent sub-regions concatenate to the
contents of the containing region. -/
theorem SlicePtr.contents_append {α : Type} (M : Mem α) (addr mid k : Nat) :
    SlicePtr.contents M ⟨addr, mid⟩ ++ SlicePtr.contents M ⟨addr + mid, k⟩ =
      SlicePtr.contents M ⟨addr, mid + k⟩ := by
  unfold SlicePtr.contents
  simp only
  rw [List.range_add, List.map_append, List.map_map]
  simp [Function.comp, Nat.add_assoc]

/-- C1: for a single position `i` on a region of length `n`, the checked
accessor `get` returns `None` for every `i ≥ n` and the address of element
`i` for every `i < n`; but the panicking accessor `index`/`index_mut`
compares with `i > n` instead of `i ≥ n`, so at the failing input `i = n`
(here `n = 3`) it returns the one-past-the-end address `base + n` without
panicking, contradicting the claim (and the trait's own documentation
"panicking if out of bounds").  For `i > n` it does panic with the message
carrying `i` and `n`, and the `Index` operator on the handle propagates the
same behavior. -/
theorem C1_index_at_len_no_panic :
    USizeIdx.get 3 ⟨0, 3⟩ = none ∧
    USizeIdx.index 3 ⟨0, 3⟩ = .ok 3 ∧
    USizeIdx.index 4 ⟨0, 3⟩ = .error (.indexFail 4 3) ∧
    USizeIdx.get 2 ⟨0, 3⟩ = some 2 ∧
    USizeIdx.index 2 ⟨0, 3⟩ = .ok 2 ∧
    Deferred.indexElem (fun a => a) ⟨.shared, ⟨0, 3⟩⟩ 3 = .ok 3 :=
  ⟨rfl, rfl, rfl, rfl, rfl, rfl⟩

/-- C2: for `mid ≤ n`, `split_at` and `split_at_mut` succeed and return the
two sub-handles produced by the unchecked variants, whose lengths are `mid`
and `n - mid`, whose pointers agree between the shared and mutable variants,
and whose contents concatenate back to the contents of the input handle;
for `mid > n` both panic (failed `assert!`). -/
theorem C2_split_at_correct (α : Type) (M : Mem α) (d : DeferredSlice) (mid : Nat) :
    (mid ≤ Deferred.len d →
      Deferred.split_at d mid = .ok (Deferred.split_at_unchecked d mid) ∧
      Deferred.split_at_mut d mid = .ok (Deferred.split_at_mut_unchecked d mid) ∧
      (Deferred.split_at_unchecked d mid).1.ptr.len = mid ∧
      (Deferred.split_at_unchecked d mid).2.ptr.len = Deferred.len d - mid ∧
      (Deferred.split_at_mut_unchecked d mid).1.ptr =
        (Deferred.split_at_unchecked d mid).1.ptr ∧
      (Deferred.split_at_mut_unchecked d mid).2.ptr =
        (Deferred.split_at_unchecked d mid).2.ptr ∧
      SlicePtr.contents M (Deferred.split_at_unchecked d mid).1.ptr ++
          SlicePtr.contents M (Deferred.split_at_unchecked d mid).2.ptr =
        SlicePtr.contents M d.ptr) ∧
    (mid > Deferred.len d →
      Deferred.split_at d mid = .error .assertFail ∧
      Deferred.split_at_mut d mid = .error .assertFail) := by
  constructor
  · intro h
    refine ⟨?_, ?_, rfl, rfl, rfl, rfl, ?_⟩
    · simp [Deferred.split_at, h]
    · simp [Deferred.split_at_mut, h]
    · show SlicePtr.contents M ⟨d.ptr.addr + 0, mid - 0⟩ ++
          SlicePtr.contents M ⟨d.ptr.addr + mid, d.ptr.len - mid⟩ =
          SlicePtr.contents M d.ptr
      have hlen : mid + (d.ptr.len - mid) = d.ptr.len := by
        have : mid ≤ d.ptr.len := h
        omega
      calc SlicePtr.contents M ⟨d.ptr.addr + 0, mid - 0⟩ ++
            SlicePtr.contents M ⟨d.ptr.addr + mid, d.ptr.len - mid⟩
          = SlicePtr.contents M ⟨d.ptr.addr, mid + (d.ptr.len - mid)⟩ := by
            rw [Nat.add_zero, Nat.sub_zero]
            exact SlicePtr.contents_append M d.ptr.addr mid (d.ptr.len - mid)
        _ = SlicePtr.contents M d.ptr := by rw [hlen]
  · intro h
    constructor
    · simp [Deferred.split_at, Nat.not_le.mpr h]
    · simp [Deferred.split_at_mut, Nat.not_le.mpr h]

/-- Witness for C2 at a handle of length 4, `mid = 2` and `mid = 7`. -/
theorem C2_split_at_correct_witness :
    Deferred.split_at ⟨.shared, ⟨0, 4⟩⟩ 2 =
      .ok (⟨.shared, ⟨0, 2⟩⟩, ⟨.shared, ⟨2, 2⟩⟩) ∧
    SlicePtr.contents (fun a => a) (⟨0, 2⟩ : SlicePtr) ++
        SlicePtr.contents (fun a => a) (⟨2, 2⟩ : SlicePtr) =
      SlicePtr.contents (fun a => a) (⟨0, 4⟩ : SlicePtr) ∧
    Deferred.split_at ⟨.shared, ⟨0, 4⟩⟩ 7 = .error .assertFail := by
  have h1 := (C2_split_at_correct Nat (fun a => a) ⟨.shared, ⟨0, 4⟩⟩ 2).1 (by decide)
  have h2 := (C2_split_at_correct Nat (fun a => a) ⟨.shared, ⟨0, 4⟩⟩ 7).2 (by decide)
  exact ⟨h1.1, h1.2.2.2.2.2.2, h2.1⟩

/-- C3 counterexample: the claim asserts that the empty range `a..a` is valid
"including when `a > n`", but on a region of length 3 the range `4..4` makes
the checked accessor return `None` and the panicking accessor panic with the
end-out-of-range message (the endpoint of an empty range is still
bounds-checked, as the source's own comment in `into_slice_range` states). -/
theorem C3_empty_range_oob_counterexample :
    RangeIdx.get ⟨4, 4⟩ ⟨0, 3⟩ = none ∧
    RangeIdx.index ⟨4, 4⟩ ⟨0, 3⟩ = .error (.endFail 4 3) :=
  ⟨rfl, rfl⟩

/-- C3 amended: the empty range `a..a` yields `Some` of a zero-length
sub-region at offset `a` and the panicking accessor does not panic exactly
when `a ≤ n`; for `a > n` the checked accessor returns `None` and the
panicking accessor panics with the end-out-of-range message naming `a` and
`n`. -/
theorem C3_empty_range_amended (a : Nat) (p : SlicePtr) :
    (a ≤ p.len →
      RangeIdx.get ⟨a, a⟩ p = some ⟨p.addr + a, 0⟩ ∧
      RangeIdx.index ⟨a, a⟩ p = .ok ⟨p.addr + a, 0⟩) ∧
    (a > p.len →
      RangeIdx.get ⟨a, a⟩ p = none ∧
      RangeIdx.index ⟨a, a⟩ p = .error (.endFail a p.len)) := by
  constructor
  · intro h
    constructor
    · simp [RangeIdx.get, RangeIdx.get_unchecked, PointerLength.lenSlice, Nat.not_lt.mpr h]
    · simp [RangeIdx.index, RangeIdx.get_unchecked, PointerLength.lenSlice, Nat.not_lt.mpr h]
  · intro h
    constructor
    · simp [RangeIdx.get, PointerLength.lenSlice, h]
    · simp [RangeIdx.index, PointerLength.lenSlice, h]

/-- Witness for C3 amended at `a = 2` and `a = 4` on a region of length 3. -/
theorem C3_empty_range_amended_witness :
    RangeIdx.get ⟨2, 2⟩ ⟨0, 3⟩ = some ⟨2, 0⟩ ∧
    RangeIdx.get ⟨4, 4⟩ ⟨7, 3⟩ = none := by
  have h1 := (C3_empty_range_amended 2 ⟨0, 3⟩).1 (by decide)
  have h2 := (C3_empty_range_amended 4 ⟨7, 3⟩).2 (by decide)
  exact ⟨h1.1, h2.1⟩

/-- C4 counterexample: the claim asserts that splitting an exclusive handle
yields two exclusive handles, but `Deferred::split_at` is defined for every
flavor and builds its results with `Deferred::from_raw`, so on an exclusive
handle it returns two SHARED handles. -/
theorem C4_split_at_exclusive_counterexample :
    Deferred.split_at ⟨.exclusive, ⟨0, 4⟩⟩ 2 =
      .ok (⟨.shared, ⟨0, 2⟩⟩, ⟨.shared, ⟨2, 2⟩⟩) ∧
    Flavor.shared ≠ Flavor.exclusive :=
  ⟨rfl, by decide⟩

/-- C4 amended: `split_at` (and `split_at_unchecked`) always returns two
shared handles, whatever the flavor of the input, so it preserves the flavor
of a shared handle; `split_at_mut` (and `split_at_mut_unchecked`), which is
only defined on exclusive handles, returns two exclusive handles.  Neither
constructs a reference: they operate purely on the pointer. -/
theorem C4_split_flavors (d : DeferredSlice) (mid : Nat) :
    ((Deferred.split_at_unchecked d mid).1.flavor = .shared ∧
     (Deferred.split_at_unchecked d mid).2.flavor = .shared) ∧
    (d.flavor = .shared →
      (Deferred.split_at_unchecked d mid).1.flavor = d.flavor ∧
      (Deferred.split_at_unchecked d mid).2.flavor = d.flavor) ∧
    ((Deferred.split_at_mut_unchecked d mid).1.flavor = .exclusive ∧
     (Deferred.split_at_mut_unchecked d mid).2.flavor = .exclusive) ∧
    (mid ≤ Deferred.len d →
      Deferred.split_at d mid = .ok (Deferred.split_at_unchecked d mid) ∧
      Deferred.split_at_mut d mid = .ok (Deferred.split_at_mut_unchecked d mid)) := by
  refine ⟨⟨rfl, rfl⟩, ?_, ⟨rfl, rfl⟩, ?_⟩
  · intro h
    exact ⟨h.symm, h.symm⟩
  · intro h
    exact ⟨by simp [Deferred.split_at, h], by simp [Deferred.split_at_mut, h]⟩

/-- Witness for C4 amended on a shared handle of length 4 at `mid = 1`. -/
theorem C4_split_flavors_witness :
    (Deferred.split_at_unchecked ⟨.shared, ⟨0, 4⟩⟩ 1).1.flavor = Flavor.shared ∧
    Deferred.split_at ⟨.shared, ⟨0, 4⟩⟩ 1 =
      .ok (Deferred.split_at_unchecked ⟨.shared, ⟨0, 4⟩⟩ 1) := by
  have h := C4_split_flavors ⟨.shared, ⟨0, 4⟩⟩ 1
  exact ⟨(h.2.1 rfl).1, (h.2.2.2 (by decide)).1⟩

/-- C5: on a region of length `n`, the checked accessor for `a..b` returns
`Some` of the sub-region of length `b - a` at offset `a` exactly when
`a ≤ b ∧ b ≤ n` and `None` otherwise, and the checked accessor for `a..`
returns `Some` of the sub-region of length `n - a` exactly when `a ≤ n`;
in particular `1001..` on a region of length 1024 yields a sub-region of
length 23.  (The accessors take no memory argument at all: they never
dereference either pointer.) -/
theorem C5_checked_range_get (a b : Nat) (p : SlicePtr) :
    (a ≤ b ∧ b ≤ p.len → RangeIdx.get ⟨a, b⟩ p = some ⟨p.addr + a, b - a⟩) ∧
    (¬ (a ≤ b ∧ b ≤ p.len) → RangeIdx.get ⟨a, b⟩ p = none) ∧
    (a ≤ p.len → RangeFromIdx.get a p = some ⟨p.addr + a, p.len - a⟩) ∧
    (¬ a ≤ p.len → RangeFromIdx.get a p = none) ∧
    RangeFromIdx.get 1001 ⟨0, 1024⟩ = some ⟨1001, 23⟩ := by
  refine ⟨?_, ?_, ?_, ?_, rfl⟩
  · intro ⟨h1, h2⟩
    simp [RangeIdx.get, RangeIdx.get_unchecked, PointerLength.lenSlice]
    omega
  · intro h
    simp [RangeIdx.get, PointerLength.lenSlice]
    omega
  · intro h
    simp [RangeFromIdx.get, RangeIdx.get, RangeIdx.get_unchecked, PointerLength.lenSlice]
    omega
  · intro h
    simp [RangeFromIdx.get, RangeIdx.get, PointerLength.lenSlice]
    omega

/-- Witness for C5 on a region of length 1024. -/
theorem C5_checked_range_get_witness :
    RangeIdx.get ⟨5, 10⟩ ⟨0, 1024⟩ = some ⟨5, 5⟩ ∧
    RangeIdx.get ⟨5, 2000⟩ ⟨0, 1024⟩ = none ∧
    RangeFromIdx.get 1001 ⟨0, 1024⟩ = some ⟨1001, 23⟩ ∧
    RangeFromIdx.get 1025 ⟨0, 1024⟩ = none := by
  have h := C5_checked_range_get 5 10 ⟨0, 1024⟩
  have h2 := C5_checked_range_get 5 2000 ⟨0, 1024⟩
  have h3 := C5_checked_range_get 1001 0 ⟨0, 1024⟩
  have h4 := C5_checked_range_get 1025 0 ⟨0, 1024⟩
  exact ⟨h.1 (by decide), h2.2.1 (by decide), h3.2.2.1 (by decide),
    h4.2.2.2.1 (by decide)⟩

/-- Auxiliary: `into_slice_range` on a nonempty inclusive range below
`usize::MAX` is the half-open range with the end bumped by one. -/
theorem into_slice_range_nonempty (a b : Nat) (hab : a ≤ b) (hb : b < USIZE_MAX) :
    into_slice_range ⟨a, b⟩ = ⟨a, b + 1⟩ := by
  have h1 : into_slice_range ⟨a, b⟩ =
      ⟨if RustRangeInclusive.is_empty ⟨a, b⟩ then (b + 1) % 2 ^ 64 else a,
        (b + 1) % 2 ^ 64⟩ := rfl
  have hempty : RustRangeInclusive.is_empty ⟨a, b⟩ = false := by
    simp [RustRangeInclusive.is_empty, hab]
  rw [h1, hempty, succ_mod_usize b hb]
  simp

/-- Auxiliary: `into_slice_range` on an empty inclusive range below
`usize::MAX` is the empty half-open range at the bumped endpoint. -/
theorem into_slice_range_empty (a b : Nat) (hab : b < a) (hb : b < USIZE_MAX) :
    into_slice_range ⟨a, b⟩ = ⟨b + 1, b + 1⟩ := by
  have h1 : into_slice_range ⟨a, b⟩ =
      ⟨if RustRangeInclusive.is_empty ⟨a, b⟩ then (b + 1) % 2 ^ 64 else a,
        (b + 1) % 2 ^ 64⟩ := rfl
  have hempty : RustRangeInclusive.is_empty ⟨a, b⟩ = true := by
    simp [RustRangeInclusive.is_empty]
    omega
  rw [h1, hempty, succ_mod_usize b hb]
  simp

/-- C6 counterexample: the claim says `a..=b` with `b < usize::MAX` indexes
exactly like `a..b+1`, but for the empty inclusive range `5..=2` on a region
of length 10 the checked accessor yields `Some` of a zero-length sub-region
at offset 3 (`into_slice_range` turns it into `3..3`), while `5..3` yields
`None` (and the panicking accessor returns the empty sub-region for `5..=2`
but panics with the start-after-end message for `5..3`). -/
theorem C6_inclusive_empty_counterexample :
    RangeIncIdx.get ⟨5, 2⟩ ⟨0, 10⟩ = some ⟨3, 0⟩ ∧
    RangeIdx.get ⟨5, 3⟩ ⟨0, 10⟩ = none ∧
    RangeIncIdx.index ⟨5, 2⟩ ⟨0, 10⟩ = .ok ⟨3, 0⟩ ∧
    RangeIdx.index ⟨5, 3⟩ ⟨0, 10⟩ = .error (.orderFail 5 3) :=
  ⟨rfl, rfl, rfl, rfl⟩

/-- C6 amended: for a NONEMPTY inclusive range (`a ≤ b`) with
`b < usize::MAX`, all three accessors for `a..=b` coincide with those for
`a..b+1` (so `5..=10` on a region of length ≥ 11 yields length 6 while
`5..10` yields length 5); an EMPTY inclusive range (`a > b`,
`b < usize::MAX`) instead behaves like the empty range `b+1..b+1`, whose
endpoint is still bounds-checked; and for `b = usize::MAX` the checked
accessor returns `None` and the panicking accessor panics with the distinct
range-end-at-maximum message, the `b + 1` computation being guarded so it
never overflows. -/
theorem C6_inclusive_range_amended (a b : Nat) (p : SlicePtr) :
    (a ≤ b → b < USIZE_MAX →
      RangeIncIdx.get ⟨a, b⟩ p = RangeIdx.get ⟨a, b + 1⟩ p ∧
      RangeIncIdx.index ⟨a, b⟩ p = RangeIdx.index ⟨a, b + 1⟩ p ∧
      RangeIncIdx.get_unchecked ⟨a, b⟩ p = RangeIdx.get_unchecked ⟨a, b + 1⟩ p) ∧
    (a > b → b < USIZE_MAX →
      RangeIncIdx.get ⟨a, b⟩ p = RangeIdx.get ⟨b + 1, b + 1⟩ p ∧
      RangeIncIdx.index ⟨a, b⟩ p = RangeIdx.index ⟨b + 1, b + 1⟩ p) ∧
    (RangeIncIdx.get ⟨a, USIZE_MAX⟩ p = none ∧
     RangeIncIdx.index ⟨a, USIZE_MAX⟩ p = .error .endOverflowFail) ∧
    (11 ≤ p.len →
      RangeIncIdx.get ⟨5, 10⟩ p = some ⟨p.addr + 5, 6⟩ ∧
      RangeIdx.get ⟨5, 10⟩ p = some ⟨p.addr + 5, 5⟩) := by
  refine ⟨?_, ?_, ⟨by simp [RangeIncIdx.get], by simp [RangeIncIdx.index]⟩, ?_⟩
  · intro hab hb
    have hne : b ≠ USIZE_MAX := Nat.ne_of_lt hb
    have hisr := into_slice_range_nonempty a b hab hb
    exact ⟨by simp [RangeIncIdx.get, hne, hisr],
      by simp [RangeIncIdx.index, hne, hisr],
      by simp [RangeIncIdx.get_unchecked, hisr]⟩
  · intro hab hb
    have hne : b ≠ USIZE_MAX := Nat.ne_of_lt hb
    have hisr := into_slice_range_empty a b hab hb
    exact ⟨by simp [RangeIncIdx.get, hne, hisr],
      by simp [RangeIncIdx.index, hne, hisr]⟩
  · intro hp
    have h10 : (10 : Nat) < USIZE_MAX := by norm_num [USIZE_MAX]
    have hne : (10 : Nat) ≠ USIZE_MAX := Nat.ne_of_lt h10
    have hisr : into_slice_range ⟨5, 10⟩ = ⟨5, 11⟩ :=
      into_slice_range_nonempty 5 10 (by omega) h10
    constructor
    · simp [RangeIncIdx.get, hne, hisr, RangeIdx.get, RangeIdx.get_unchecked,
        PointerLength.lenSlice, Nat.not_lt.mpr hp]
    · have hp10 : ¬ p.len < 10 := by omega
      simp [RangeIdx.get, RangeIdx.get_unchecked, PointerLength.lenSlice, hp10]

/-- Witness for C6 amended on a region of length 11. -/
theorem C6_inclusive_range_amended_witness :
    RangeIncIdx.get ⟨5, 10⟩ ⟨0, 11⟩ = RangeIdx.get ⟨5, 11⟩ ⟨0, 11⟩ ∧
    RangeIncIdx.get ⟨5, 2⟩ ⟨0, 11⟩ = RangeIdx.get ⟨3, 3⟩ ⟨0, 11⟩ ∧
    RangeIncIdx.get ⟨5, USIZE_MAX⟩ ⟨0, 11⟩ = none ∧
    RangeIncIdx.get ⟨5, 10⟩ ⟨0, 11⟩ = some ⟨5, 6⟩ := by
  have h := C6_inclusive_range_amended 5 10 ⟨0, 11⟩
  have h2 := C6_inclusive_range_amended 5 2 ⟨0, 11⟩
  have hlt : (10 : Nat) < USIZE_MAX := by norm_num [USIZE_MAX]
  have hlt2 : (2 : Nat) < USIZE_MAX := by norm_num [USIZE_MAX]
  exact ⟨(h.1 (by decide) hlt).1, (h2.2.1 (by decide) hlt2).1, h.2.2.1.1,
    (h.2.2.2 (by decide)).1⟩

/-- C7: the length-without-dereference operation for an array target
`[T; N]` returns the compile-time constant `N` for every pointer, ignoring
the address (the source discards the pointer argument); for a slice target
without the `slice_ptr_len` feature it panics unconditionally instead of
dereferencing. -/
theorem C7_pointer_length (N : Nat) (a : ArrayPtr N) (p : SlicePtr) :
    PointerLength.lenArray N a = N ∧
    PointerLength.lenSliceNoFeature p = .error .sliceLenFeature :=
  ⟨rfl, rfl⟩

/-- C8: downgrading an exclusive handle to a shared handle (`into_ref` /
`From`) keeps the stored address, so dereferencing the downgraded handle
reads the same value; widening an array handle of length `N` to a slice
handle keeps the flavor and the address, and the resulting handle reports
length `N` and the same contents. -/
theorem C8_downgrade_and_widen (α : Type) (M : Mem α) (d : DeferredThin)
    (N : Nat) (a : DeferredArray N) :
    (Deferred.into_ref d).flavor = .shared ∧
    (Deferred.into_ref d).addr = d.addr ∧
    DeferredThin.deref M (Deferred.into_ref d) = DeferredThin.deref M d ∧
    (Deferred.widen a).flavor = a.flavor ∧
    (Deferred.widen a).ptr.addr = a.ptr.addr ∧
    Deferred.len (Deferred.widen a) = N ∧
    SlicePtr.contents M (Deferred.widen a).ptr = ArrayPtr.contents M a.ptr :=
  ⟨rfl, rfl, rfl, rfl, rfl, rfl, rfl⟩

/-- C9: `RangeFull` indexing is an identity passthrough: on slice targets
every variant returns the input pointer unchanged and the checked variant is
always `Some`; the panicking variant has no panic path (in particular the
length operation — which for feature-less slice targets panics whenever it
IS invoked, see `PointerLength.lenSliceNoFeature` — is never consulted: the
results hold for every pointer with no length hypothesis); on an array
target of length `N` each variant returns the same address reinterpreted as
a slice over all `N` elements. -/
theorem C9_range_full_passthrough (p : SlicePtr) (N : Nat) (a : ArrayPtr N) :
    RangeFullIdx.get p = some p ∧
    RangeFullIdx.index p = .ok p ∧
    RangeFullIdx.get_unchecked p = p ∧
    RangeFullArrIdx.get a = some a.toSlice ∧
    RangeFullArrIdx.index a = .ok a.toSlice ∧
    RangeFullArrIdx.get_unchecked a = a.toSlice ∧
    a.toSlice.addr = a.addr ∧ a.toSlice.len = N :=
  ⟨rfl, rfl, rfl, rfl, rfl, rfl, rfl, rfl⟩

/-- C10: wherever their preconditions overlap (in-bounds inputs), the
checked, panicking and unchecked accessors return the identical address,
namely the base address advanced by the (start) index in element units, and
for range shapes the returned sub-region length is `end - start`; the
handle-level `get`/`get_unchecked` then dereference that same address. -/
theorem C10_variants_agree (α : Type) (M : Mem α) (d : DeferredSlice)
    (i : Nat) (r : RustRange) (p : SlicePtr) :
    (i < p.len →
      USizeIdx.get i p = some (p.addr + i) ∧
      USizeIdx.index i p = .ok (p.addr + i) ∧
      USizeIdx.get_unchecked i p = p.addr + i) ∧
    (r.start ≤ r.stop → r.stop ≤ p.len →
      RangeIdx.get r p = some ⟨p.addr + r.start, r.stop - r.start⟩ ∧
      RangeIdx.index r p = .ok ⟨p.addr + r.start, r.stop - r.start⟩ ∧
      RangeIdx.get_unchecked r p = ⟨p.addr + r.start, r.stop - r.start⟩) ∧
    (i < d.ptr.len →
      Deferred.getElem M d i = some (Deferred.getElemUnchecked M d i) ∧
      Deferred.indexElem M d i = .ok (Deferred.getElemUnchecked M d i)) := by
  refine ⟨?_, ?_, ?_⟩
  · intro h
    have hnot : ¬ PointerLength.lenSlice p < i := by
      simpa [PointerLength.lenSlice] using Nat.not_lt.mpr (Nat.le_of_lt h)
    refine ⟨?_, ?_, rfl⟩
    · simp [USizeIdx.get, USizeIdx.get_unchecked, PointerLength.lenSlice, h]
    · simp [USizeIdx.index, USizeIdx.get_unchecked, hnot]
  · intro h1 h2
    have hnot1 : ¬ r.stop < r.start := Nat.not_lt.mpr h1
    have hnot2 : ¬ PointerLength.lenSlice p < r.stop := by
      simpa [PointerLength.lenSlice] using Nat.not_lt.mpr h2
    refine ⟨?_, ?_, rfl⟩
    · simp [RangeIdx.get, RangeIdx.get_unchecked, hnot1, hnot2]
    · simp [RangeIdx.index, RangeIdx.get_unchecked, hnot1, hnot2]
  · intro h
    have hnot : ¬ PointerLength.lenSlice d.ptr < i := by
      simpa [PointerLength.lenSlice] using Nat.not_lt.mpr (Nat.le_of_lt h)
    constructor
    · simp [Deferred.getElem, Deferred.getElemUnchecked, USizeIdx.get,
        PointerLength.lenSlice, h]
    · simp [Deferred.indexElem, Deferred.getElemUnchecked, USizeIdx.index, hnot,
        Except.map]

/-- Witness for C10 at `i = 1`, `r = 1..3` on a region of length 5. -/
theorem C10_variants_agree_witness :
    USizeIdx.get 1 ⟨10, 5⟩ = some 11 ∧
    USizeIdx.index 1 ⟨10, 5⟩ = .ok 11 ∧
    RangeIdx.get ⟨1, 3⟩ ⟨10, 5⟩ = some ⟨11, 2⟩ ∧
    RangeIdx.index ⟨1, 3⟩ ⟨10, 5⟩ = .ok ⟨11, 2⟩ ∧
    Deferred.getElem (fun n => n) ⟨.shared, ⟨10, 5⟩⟩ 1 =
      some (Deferred.getElemUnchecked (fun n => n) ⟨.shared, ⟨10, 5⟩⟩ 1) := by
  have h := C10_variants_agree Nat (fun n => n) ⟨.shared, ⟨10, 5⟩⟩ 1 ⟨1, 3⟩ ⟨10, 5⟩
  have h1 := h.1 (by decide)
  have h2 := h.2.1 (by decide) (by decide)
  have h3 := h.2.2 (by decide)
  exact ⟨h1.1, h1.2.1, h2.1, h2.2.1, h3.1⟩
